import Mathlib

/-!
Shallow embedding of `concordia/utils/concurrency.py`: a scoped
`ThreadPoolExecutor` context manager (`executor`) and a parallel map
(`run_parallel`).  Python exceptions are modelled with `Except`; the
thread-level nondeterminism of `Executor.map` is irrelevant to the values
produced (results are yielded in input order), except for timeouts, which
are modelled by an oracle `avail : Nat → Bool` telling whether the i-th
result becomes available before the deadline.
-/

namespace Concurrency

/-- Python exception values relevant to the code: `ValueError` (with its
message), `TimeoutError` raised by `Executor.map`, and an arbitrary
exception raised by the mapped function, identified by type name and
message (so that propagation "same type, same message, no wrapping" is
expressible). -/
inductive PyErr where
  | valueError (msg : String)
  | timeoutError
  | exc (ty msg : String)
deriving DecidableEq, Repr

/-- The two shutdown protocols of `ThreadPoolExecutor.shutdown` as used by
`executor`: `graceful` is `shutdown()` (wait for all work), `abort` is
`shutdown(wait=False, cancel_futures=True)`. -/
inductive Shutdown where
  | graceful
  | abort
deriving DecidableEq, Repr

/-- Outcome of running a `with executor(...)` scope: the list of shutdown
calls performed on exit (in order) and the value returned or exception
propagated. -/
structure ScopeResult (β : Type) where
  shutdowns : List Shutdown
  outcome : Except PyErr β
deriving Repr

/-- Constructor check of `concurrent.futures.ThreadPoolExecutor`: raises
`ValueError` when `max_workers` is not positive (stdlib semantics of the
call on line 44 of the source). -/
def threadPoolExecutorCheck (max_workers : Int) : Except PyErr Unit :=
  if max_workers ≤ 0 then
    .error (.valueError "max_workers must be greater than 0")
  else
    .ok ()

/-- Embedding of the `executor` context manager (source lines 25-51)
applied to a protected block `body`.  The pool is created first (its
constructor may reject `max_workers`); on a normal exit of the body a
graceful shutdown runs; on an exceptional exit
`shutdown(wait=False, cancel_futures=True)` runs and the exception is
re-raised.  The shutdown call in the `except` branch is a library call
that may itself raise; `abortShutdownRaises` says whether it does, and
with which exception.  Per Python semantics, an exception raised inside
the `except` branch propagates instead of the original (the bare `raise`
is never reached). -/
def executor (max_workers : Int) (body : Except PyErr β)
    (abortShutdownRaises : Option PyErr) : ScopeResult β :=
  match threadPoolExecutorCheck max_workers with
  | .error e => ⟨[], .error e⟩
  | .ok _ =>
    match body with
    | .ok v => ⟨[Shutdown.graceful], .ok v⟩
    | .error e =>
      match abortShutdownRaises with
      | none => ⟨[Shutdown.abort], .error e⟩
      | some e2 => ⟨[Shutdown.abort], .error e2⟩

/-- Python `min` over a list: raises `ValueError` on an empty argument
(semantics of `min(len(arg) for arg in args)` on line 80). -/
def pyMin (xs : List Int) : Except PyErr Int :=
  match xs with
  | [] => .error (.valueError "min() arg is an empty sequence")
  | x :: rest => .ok (rest.foldl min x)

/-- Length of `zip(*args)`: the minimum of the sequence lengths, and 0
when there are no sequences (Python `zip()` is empty). -/
def zipLen : List (List α) → Nat
  | [] => 0
  | s :: ss => ss.foldl (fun m t => min m t.length) s.length

/-- The tuple of i-th elements of the input sequences (the i-th element
of `zip(*args)`; the default is never reached for `i < zipLen args`). -/
def tupleAt [Inhabited α] (args : List (List α)) (i : Nat) : List α :=
  args.map (fun s => s.getD i default)

/-- Python `zip(*args)`: positional zip truncated to the shortest
sequence. -/
def pyZip [Inhabited α] (args : List (List α)) : List (List α) :=
  (List.range (zipLen args)).map (tupleAt args)

/-- Consumption of the iterator returned by `executor_.map` starting at
index `i` (the `list(results)` on line 83).  For each tuple in input
order: if a timeout is configured and the result is not available before
the deadline, `TimeoutError` is raised; otherwise the result is
retrieved, re-raising the exception `fn` raised, if any.  This is the
documented stdlib semantics of `Executor.map` with pure `fn`. -/
def collectFrom (fn : List α → Except PyErr β) (hasTimeout : Bool)
    (avail : Nat → Bool) : Nat → List (List α) → Except PyErr (List β)
  | _, [] => .ok []
  | i, t :: ts =>
    if hasTimeout && !(avail i) then .error .timeoutError
    else
      match fn t with
      | .error e => .error e
      | .ok v =>
        match collectFrom fn hasTimeout avail (i + 1) ts with
        | .error e => .error e
        | .ok vs => .ok (v :: vs)

/-- Worker-count computation of `run_parallel` (lines 79-80): the given
`max_workers` when set, otherwise `min(len(arg) for arg in args)`. -/
def workerCount (args : List (List α)) (max_workers : Option Int) :
    Except PyErr Int :=
  match max_workers with
  | some m => .ok m
  | none => pyMin (args.map (fun a => (a.length : Int)))

/-- Embedding of `run_parallel` (source lines 54-83): compute the worker
count, open the `executor` scope with it, run `executor_.map(fn, *args,
timeout=timeout)` and consume the results.  `avail i` is the oracle for
"the i-th result is available before the deadline"; the shutdown call in
the error path of `executor` is the real library call, modelled as not
raising here. -/
def run_parallel [Inhabited α] (fn : List α → Except PyErr β)
    (args : List (List α)) (timeout : Option Rat)
    (max_workers : Option Int) (avail : Nat → Bool) :
    Except PyErr (List β) :=
  match workerCount args max_workers with
  | .error e => .error e
  | .ok m =>
    (executor m (collectFrom fn timeout.isSome avail 0 (pyZip args))
      none).outcome

/-! Helper lemmas about the fold computing the minimum length. -/

theorem foldl_min_le_init (l : List Nat) (a : Nat) : l.foldl min a ≤ a := by
  induction l generalizing a with
  | nil => exact le_refl a
  | cons x xs ih =>
    exact le_trans (ih (min a x)) (min_le_left a x)

theorem foldl_min_le_mem (l : List Nat) (a x : Nat) (hx : x ∈ l) :
    l.foldl min a ≤ x := by
  induction l generalizing a with
  | nil => cases hx
  | cons y ys ih =>
    rcases List.mem_cons.mp hx with h | h
    · subst h
      exact le_trans (foldl_min_le_init ys (min a x)) (min_le_right a x)
    · exact ih (min a y) h

theorem foldl_min_eq_init_or_mem (l : List Nat) (a : Nat) :
    l.foldl min a = a ∨ l.foldl min a ∈ l := by
  induction l generalizing a with
  | nil => exact Or.inl rfl
  | cons x xs ih =>
    rcases ih (min a x) with h | h
    · rcases min_choice a x with hm | hm
      · exact Or.inl (by rw [List.foldl_cons, h, hm])
      · exact Or.inr (by rw [List.foldl_cons, h, hm]; exact List.mem_cons_self x xs)
    · exact Or.inr (List.mem_cons_of_mem x h)

theorem foldl_min_cast (l : List Nat) (a : Nat) :
    (l.map (Nat.cast : Nat → Int)).foldl min (Nat.cast a)
      = Nat.cast (l.foldl min a) := by
  induction l generalizing a with
  | nil => rfl
  | cons x xs ih =>
    rw [List.map_cons, List.foldl_cons, List.foldl_cons, ← Nat.cast_min a x, ih]

/-! Helper lemmas about `zipLen`: it is the minimum of the lengths. -/

theorem zipLen_cons (s : List α) (ss : List (List α)) :
    zipLen (s :: ss) = (ss.map List.length).foldl min s.length := by
  rw [zipLen, List.foldl_map]

theorem zipLen_le (args : List (List α)) (s : List α) (hs : s ∈ args) :
    zipLen args ≤ s.length := by
  cases args with
  | nil => cases hs
  | cons a as =>
    rw [zipLen_cons]
    rcases List.mem_cons.mp hs with h | h
    · subst h
      exact foldl_min_le_init _ _
    · exact foldl_min_le_mem _ _ _ (List.mem_map_of_mem List.length h)

theorem zipLen_mem (args : List (List α)) (hne : args ≠ []) :
    ∃ s ∈ args, s.length = zipLen args := by
  cases args with
  | nil => exact absurd rfl hne
  | cons a as =>
    rw [zipLen_cons]
    rcases foldl_min_eq_init_or_mem (as.map List.length) a.length with h | h
    · exact ⟨a, List.mem_cons_self a as, h.symm⟩
    · rcases List.mem_map.mp h with ⟨s, hs, hlen⟩
      exact ⟨s, List.mem_cons_of_mem a hs, hlen⟩

theorem zipLen_pos (args : List (List α)) (hne : args ≠ [])
    (h : ∀ s ∈ args, s ≠ []) : 0 < zipLen args := by
  rcases zipLen_mem args hne with ⟨s, hs, hlen⟩
  rw [← hlen]
  exact List.length_pos.mpr (h s hs)

theorem zipLen_const (args : List (List α)) (L : Nat) (hne : args ≠ [])
    (hlen : ∀ s ∈ args, s.length = L) : zipLen args = L := by
  rcases zipLen_mem args hne with ⟨s, hs, h⟩
  rw [← h, hlen s hs]

/-! Helper lemmas about `workerCount` and `pyZip`. -/

theorem workerCount_none (args : List (List α)) (hne : args ≠ []) :
    workerCount args none = .ok ((zipLen args : Nat) : Int) := by
  cases args with
  | nil => exact absurd rfl hne
  | cons a as =>
    show pyMin (((a :: as).map (fun s => (s.length : Int)))) = _
    rw [List.map_cons, pyMin]
    have hcomp : (as.map (fun s => (s.length : Int)))
        = (as.map List.length).map (Nat.cast : Nat → Int) := by
      rw [List.map_map]
      exact List.map_congr_left (fun s _ => rfl)
    rw [hcomp, foldl_min_cast, zipLen_cons]

theorem pyZip_length [Inhabited α] (args : List (List α)) :
    (pyZip args).length = zipLen args := by
  rw [pyZip, List.length_map, List.length_range]

theorem pyZip_getD [Inhabited α] (args : List (List α)) (i : Nat)
    (h : i < zipLen args) (d : List α) :
    (pyZip args).getD i d = tupleAt args i := by
  have hlt : i < (pyZip args).length := by rw [pyZip_length]; exact h
  rw [List.getD_eq_getElem _ _ hlt]
  simp [pyZip]

theorem pyZip_mem [Inhabited α] (args : List (List α)) (t : List α)
    (ht : t ∈ pyZip args) : ∃ i, i < zipLen args ∧ t = tupleAt args i := by
  rcases List.mem_map.mp ht with ⟨i, hi, hti⟩
  exact ⟨i, List.mem_range.mp hi, hti.symm⟩

/-! Helper lemmas about result collection. -/

theorem collectFrom_ok_noTimeout (fn : List α → Except PyErr β)
    (g : List α → β) (avail : Nat → Bool) (k : Nat) (ts : List (List α))
    (h : ∀ t ∈ ts, fn t = .ok (g t)) :
    collectFrom fn false avail k ts = .ok (ts.map g) := by
  induction ts generalizing k with
  | nil => rfl
  | cons t ts ih =>
    rw [collectFrom, if_neg (by simp)]
    rw [h t (List.mem_cons_self t ts),
      ih (k + 1) (fun u hu => h u (List.mem_cons_of_mem t hu)), List.map_cons]

theorem collectFrom_err_noTimeout (fn : List α → Except PyErr β)
    (avail : Nat → Bool) (dflt : List α) (k : Nat) (ts : List (List α))
    (i : Nat) (e : PyErr) (hi : i < ts.length)
    (he : fn (ts.getD i dflt) = .error e)
    (hok : ∀ j, j < i → ∃ v, fn (ts.getD j dflt) = .ok v) :
    collectFrom fn false avail k ts = .error e := by
  induction ts generalizing i k with
  | nil => cases hi
  | cons t ts ih =>
    rw [collectFrom, if_neg (by simp)]
    cases i with
    | zero =>
      rw [List.getD_cons_zero] at he
      rw [he]
    | succ i =>
      rcases hok 0 (Nat.succ_pos i) with ⟨v, hv⟩
      rw [List.getD_cons_zero] at hv
      rw [hv]
      rw [List.getD_cons_succ] at he
      rw [ih (k + 1) i (Nat.lt_of_succ_lt_succ hi) he
        (fun j hj => by
          have := hok (j + 1) (Nat.succ_lt_succ hj)
          rwa [List.getD_cons_succ] at this)]

theorem collectFrom_timeout (fn : List α → Except PyErr β)
    (avail : Nat → Bool) (k : Nat) (ts : List (List α))
    (hok : ∀ t ∈ ts, ∃ v, fn t = .ok v)
    (hbad : ∃ j, j < ts.length ∧ avail (k + j) = false) :
    collectFrom fn true avail k ts = .error .timeoutError := by
  induction ts generalizing k with
  | nil =>
    rcases hbad with ⟨j, hj, _⟩
    cases hj
  | cons t ts ih =>
    by_cases hk : avail k = true
    · rcases hok t (List.mem_cons_self t ts) with ⟨v, hv⟩
      rw [collectFrom, if_neg (by simp [hk]), hv]
      rw [ih (k + 1) (fun u hu => hok u (List.mem_cons_of_mem t hu)) ?_]
      rcases hbad with ⟨j, hj, hja⟩
      cases j with
      | zero => rw [Nat.add_zero] at hja; rw [hk] at hja; cases hja
      | succ j =>
        refine ⟨j, Nat.lt_of_succ_lt_succ hj, ?_⟩
        rw [← hja]
        congr 1
        omega
    · have hk2 : avail k = false := by simpa using hk
      rw [collectFrom, if_pos (by simp [hk2])]

/-! Helper lemmas tying `run_parallel` to its pieces. -/

theorem executor_outcome_ok_body (m : Int) (hm : 0 < m)
    (body : Except PyErr β) :
    (executor m body none).outcome = body := by
  unfold executor threadPoolExecutorCheck
  rw [if_neg (not_le.mpr hm)]
  cases body <;> rfl

theorem run_parallel_none_eq [Inhabited α] (fn : List α → Except PyErr β)
    (args : List (List α)) (timeout : Option Rat) (avail : Nat → Bool)
    (hne : args ≠ []) (hpos : 0 < zipLen args) :
    run_parallel fn args timeout none avail
      = collectFrom fn timeout.isSome avail 0 (pyZip args) := by
  rw [run_parallel, workerCount_none args hne]
  exact executor_outcome_ok_body _ (by exact_mod_cast hpos) _

/-- Helper shared by the functional-correctness claims: the i-th element of
the mapped result list is the image of the i-th zipped tuple. -/
theorem map_pyZip_getD [Inhabited α] [Inhabited β] (g : List α → β)
    (args : List (List α)) (i : Nat) (hi : i < zipLen args) :
    ((pyZip args).map g).getD i default = g (tupleAt args i) := by
  have hilt : i < ((pyZip args).map g).length := by
    rw [List.length_map, pyZip_length]
    exact hi
  rw [List.getD_eq_getElem _ _ hilt, List.getElem_map]
  congr 1
  have h2 := pyZip_getD args i hi default
  rw [List.getD_eq_getElem _ _ (by rw [pyZip_length]; exact hi)] at h2
  exact h2

/-- C3: the scoped executor has exactly two exit protocols and invokes
exactly one per scope: when the protected block completes without raising
it performs the graceful shutdown (wait for all submitted work), and when
the protected block raises any error it performs the abort shutdown
(release immediately, cancel pending futures) and never the graceful,
blocking one. -/
theorem executor_exit_protocols (m : Int) (hm : 0 < m)
    (body : Except PyErr β) (ar : Option PyErr) :
    (∀ v, body = Except.ok v →
      (executor m body ar).shutdowns = [Shutdown.graceful]) ∧
    (∀ e, body = Except.error e →
      (executor m body ar).shutdowns = [Shutdown.abort]) := by
  unfold executor threadPoolExecutorCheck
  rw [if_neg (not_le.mpr hm)]
  constructor
  · rintro v rfl
    rfl
  · rintro e rfl
    cases ar <;> rfl

/-- Witness for C3: a concrete normal scope performs exactly the graceful
shutdown and a concrete failing scope performs exactly the abort one. -/
theorem executor_exit_protocols_witness :
    (executor 1 (Except.ok (0 : Nat)) none).shutdowns = [Shutdown.graceful] ∧
    (executor 1 (Except.error PyErr.timeoutError : Except PyErr Nat)
      (some (PyErr.exc "RuntimeError" "late"))).shutdowns = [Shutdown.abort] :=
  ⟨(executor_exit_protocols 1 (by decide) (Except.ok 0) none).1 0 rfl,
   (executor_exit_protocols 1 (by decide)
      (Except.error PyErr.timeoutError)
      (some (PyErr.exc "RuntimeError" "late"))).2 PyErr.timeoutError rfl⟩

/-- C4 counterexample: the `except` branch calls
`shutdown(wait=False, cancel_futures=True)` with no surrounding handler,
so an exception raised by the cancellation step propagates in place of the
original error instead of being swallowed: with primary error
`ValueError("boom")` and the shutdown call raising
`RuntimeError("cancel failed")`, the scope propagates the
`RuntimeError`, not the original `ValueError`. -/
theorem executor_abort_secondary_cex :
    (executor 1
        (Except.error (PyErr.exc "ValueError" "boom") : Except PyErr Nat)
        (some (PyErr.exc "RuntimeError" "cancel failed"))).outcome
      = Except.error (PyErr.exc "RuntimeError" "cancel failed") ∧
    ¬ (executor 1
        (Except.error (PyErr.exc "ValueError" "boom") : Except PyErr Nat)
        (some (PyErr.exc "RuntimeError" "cancel failed"))).outcome
      = Except.error (PyErr.exc "ValueError" "boom") :=
  ⟨rfl, fun h => absurd (Except.error.inj h) (by decide)⟩

/-- C4 (amended): on abnormal exit the abort shutdown is invoked and, when
the cancellation step raises no error of its own, the original triggering
error is re-raised unchanged; a secondary error raised by the cancellation
step is not swallowed — it propagates to the caller in place of the
original. -/
theorem executor_abort_reraise (m : Int) (hm : 0 < m) (e1 : PyErr) :
    ((executor m (Except.error e1 : Except PyErr β) none).outcome
        = Except.error e1 ∧
      (executor m (Except.error e1 : Except PyErr β) none).shutdowns
        = [Shutdown.abort]) ∧
    ∀ e2, (executor m (Except.error e1 : Except PyErr β) (some e2)).outcome
        = Except.error e2 := by
  unfold executor threadPoolExecutorCheck
  rw [if_neg (not_le.mpr hm)]
  exact ⟨⟨rfl, rfl⟩, fun e2 => rfl⟩

/-- Witness for the amended C4 at a concrete scope. -/
theorem executor_abort_reraise_witness :
    (executor 1
        (Except.error (PyErr.exc "ValueError" "boom") : Except PyErr Nat)
        none).outcome = Except.error (PyErr.exc "ValueError" "boom") ∧
    (executor 1
        (Except.error (PyErr.exc "ValueError" "boom") : Except PyErr Nat)
        none).shutdowns = [Shutdown.abort] ∧
    (executor 1
        (Except.error (PyErr.exc "ValueError" "boom") : Except PyErr Nat)
        (some (PyErr.exc "OSError" "x"))).outcome
      = Except.error (PyErr.exc "OSError" "x") :=
  ⟨(executor_abort_reraise 1 (by decide) (PyErr.exc "ValueError" "boom")).1.1,
   (executor_abort_reraise 1 (by decide) (PyErr.exc "ValueError" "boom")).1.2,
   (executor_abort_reraise 1 (by decide) (PyErr.exc "ValueError" "boom")).2
     (PyErr.exc "OSError" "x")⟩

/-- C7: with `max_workers` unset the worker count passed to the pool by
`run_parallel` is the length of the shortest input sequence (which is
exactly the length of the zipped sequence), and with `max_workers` set
that value is used instead. -/
theorem workerCount_spec (args : List (List α)) (m : Int) (hne : args ≠ []) :
    workerCount args none = Except.ok ((zipLen args : Nat) : Int) ∧
    (∀ s ∈ args, zipLen args ≤ s.length) ∧
    (∃ s ∈ args, s.length = zipLen args) ∧
    workerCount args (some m) = Except.ok m :=
  ⟨workerCount_none args hne, fun s hs => zipLen_le args s hs,
   zipLen_mem args hne, rfl⟩

/-- Witness for C7 at concrete sequences of lengths 2 and 1. -/
theorem workerCount_spec_witness :
    workerCount ([[1, 2], [3]] : List (List Nat)) none
      = Except.ok ((zipLen ([[1, 2], [3]] : List (List Nat)) : Nat) : Int) ∧
    (∀ s ∈ ([[1, 2], [3]] : List (List Nat)),
      zipLen ([[1, 2], [3]] : List (List Nat)) ≤ s.length) ∧
    (∃ s ∈ ([[1, 2], [3]] : List (List Nat)),
      s.length = zipLen ([[1, 2], [3]] : List (List Nat))) ∧
    workerCount ([[1, 2], [3]] : List (List Nat)) (some 5) = Except.ok 5 :=
  workerCount_spec [[1, 2], [3]] 5 (by decide)

/-- C8: a non-positive worker count makes pool creation fail with a
`ValueError` (the concrete ConfigurationError of the stdlib constructor)
before any pool exists — no shutdown ever runs — and `run_parallel`
called with such a `max_workers` propagates that failure. -/
theorem nonpositive_workers_rejected [Inhabited α] (m : Int) (hm : m ≤ 0)
    (fn : List α → Except PyErr β) (args : List (List α))
    (timeout : Option Rat) (avail : Nat → Bool)
    (body : Except PyErr β) (ar : Option PyErr) :
    threadPoolExecutorCheck m
      = Except.error (PyErr.valueError "max_workers must be greater than 0") ∧
    (executor m body ar).outcome
      = Except.error (PyErr.valueError "max_workers must be greater than 0") ∧
    (executor m body ar).shutdowns = [] ∧
    run_parallel fn args timeout (some m) avail
      = Except.error (PyErr.valueError "max_workers must be greater than 0") := by
  have hc : threadPoolExecutorCheck m
      = Except.error (PyErr.valueError "max_workers must be greater than 0") := by
    unfold threadPoolExecutorCheck
    rw [if_pos hm]
  have he : ∀ (γ : Type) (b : Except PyErr γ) (a : Option PyErr),
      executor m b a
        = ⟨[], Except.error
            (PyErr.valueError "max_workers must be greater than 0")⟩ := by
    intro γ b a
    unfold executor
    rw [hc]
  refine ⟨hc, ?_, ?_, ?_⟩
  · rw [he β body ar]
  · rw [he β body ar]
  · show (executor m (collectFrom fn timeout.isSome avail 0 (pyZip args))
        none).outcome = _
    rw [he (List β) (collectFrom fn timeout.isSome avail 0 (pyZip args)) none]

/-- Witness for C8 at worker count 0. -/
theorem nonpositive_workers_rejected_witness :
    threadPoolExecutorCheck 0
      = Except.error (PyErr.valueError "max_workers must be greater than 0") ∧
    (executor 0 (Except.ok (9 : Nat)) none).outcome
      = Except.error (PyErr.valueError "max_workers must be greater than 0") ∧
    (executor 0 (Except.ok (9 : Nat)) none).shutdowns = [] ∧
    run_parallel (fun _ => Except.ok (0 : Nat)) ([[1]] : List (List Nat))
        none (some 0) (fun _ => true)
      = Except.error (PyErr.valueError "max_workers must be greater than 0") :=
  nonpositive_workers_rejected 0 (by decide) (fun _ => Except.ok 0) [[1]]
    none (fun _ => true) (Except.ok 9) none

/-- C9: `run_parallel` with no argument sequences and `max_workers` unset
fails with the `ValueError` of `min()` on an empty iterable, raised in the
worker-count computation before any pool is created; it does not return an
empty result sequence. -/
theorem run_parallel_no_sequences [Inhabited α]
    (fn : List α → Except PyErr β) (timeout : Option Rat)
    (avail : Nat → Bool) :
    workerCount ([] : List (List α)) none
      = Except.error (PyErr.valueError "min() arg is an empty sequence") ∧
    run_parallel fn ([] : List (List α)) timeout none avail
      = Except.error (PyErr.valueError "min() arg is an empty sequence") :=
  ⟨rfl, rfl⟩

/-- C10: with `max_workers` unset and at least one supplied sequence
empty, the computed worker count is 0, pool creation rejects it with a
`ValueError`, and `run_parallel` propagates that error instead of
returning an empty result sequence. -/
theorem run_parallel_empty_sequence [Inhabited α]
    (fn : List α → Except PyErr β) (args : List (List α))
    (timeout : Option Rat) (avail : Nat → Bool)
    (hne : args ≠ []) (hempty : ∃ s ∈ args, s = []) :
    workerCount args none = Except.ok 0 ∧
    run_parallel fn args timeout none avail
      = Except.error (PyErr.valueError "max_workers must be greater than 0") := by
  rcases hempty with ⟨s, hs, rfl⟩
  have hz : zipLen args = 0 := Nat.le_zero.mp (by simpa using zipLen_le args [] hs)
  have hw : workerCount args none = Except.ok 0 := by
    rw [workerCount_none args hne, hz]
    rfl
  refine ⟨hw, ?_⟩
  unfold run_parallel
  rw [hw]
  show (executor 0 (collectFrom fn timeout.isSome avail 0 (pyZip args))
      none).outcome = _
  unfold executor threadPoolExecutorCheck
  rw [if_pos (le_refl (0 : Int))]

/-- Witness for C10 with one empty and one non-empty sequence. -/
theorem run_parallel_empty_sequence_witness :
    workerCount ([[], [7]] : List (List Nat)) none = Except.ok 0 ∧
    run_parallel (fun _ => Except.ok (0 : Nat))
        ([[], [7]] : List (List Nat)) none none (fun _ => true)
      = Except.error (PyErr.valueError "max_workers must be greater than 0") :=
  run_parallel_empty_sequence (fun _ => Except.ok 0) [[], [7]] none
    (fun _ => true) (by decide) (by decide)

/-- C1: for argument sequences of equal length L with at least one of them
non-empty, and a pure `fn` that raises on no tuple, `run_parallel` returns
a sequence of length L whose i-th element is `fn` applied to the tuple of
i-th elements of the sequences — input (zip) order, regardless of the
availability oracle. -/
theorem run_parallel_pure_equal_lengths [Inhabited α] [Inhabited β]
    (fn : List α → Except PyErr β) (g : List α → β)
    (args : List (List α)) (L : Nat) (avail : Nat → Bool)
    (hone : ∃ s ∈ args, s ≠ [])
    (hlen : ∀ s ∈ args, s.length = L)
    (hfn : ∀ t, fn t = Except.ok (g t)) :
    ∃ res : List β,
      run_parallel fn args none none avail = Except.ok res ∧
      res.length = L ∧
      ∀ i, i < L → res.getD i default = g (tupleAt args i) := by
  rcases hone with ⟨s, hs, hsne⟩
  have hne : args ≠ [] := by
    rintro rfl
    cases hs
  have hz : zipLen args = L := zipLen_const args L hne hlen
  have hLpos : 0 < L := by
    rw [← hlen s hs]
    exact List.length_pos.mpr hsne
  refine ⟨(pyZip args).map g, ?_, ?_, ?_⟩
  · rw [run_parallel_none_eq fn args none avail hne (by rw [hz]; exact hLpos)]
    exact collectFrom_ok_noTimeout fn g avail 0 (pyZip args) (fun t _ => hfn t)
  · rw [List.length_map, pyZip_length, hz]
  · intro i hi
    exact map_pyZip_getD g args i (by rw [hz]; exact hi)

/-- Witness for C1: summing tuples of `[[1,2],[3,4]]` yields `[4,6]`. -/
theorem run_parallel_pure_equal_lengths_witness :
    ∃ res : List Nat,
      run_parallel (fun t => Except.ok (t.foldl (· + ·) 0)) [[1, 2], [3, 4]]
          none none (fun _ => true) = Except.ok res ∧
      res.length = 2 ∧
      ∀ i, i < 2 →
        res.getD i default
          = (tupleAt ([[1, 2], [3, 4]] : List (List Nat)) i).foldl (· + ·) 0 :=
  run_parallel_pure_equal_lengths (fun t => Except.ok (t.foldl (· + ·) 0))
    (fun t => t.foldl (· + ·) 0) [[1, 2], [3, 4]] 2 (fun _ => true)
    (by decide) (by decide) (fun _ => rfl)

/-- C2: without a timeout, when `fn` raises on the tuple at index i of the
zipped inputs and succeeds on every earlier tuple, `run_parallel` raises
exactly that exception — same constructor, same type and message, no
wrapping — and returns no result sequence. -/
theorem run_parallel_first_failure [Inhabited α]
    (fn : List α → Except PyErr β) (args : List (List α))
    (avail : Nat → Bool) (i : Nat) (e : PyErr)
    (hi : i < zipLen args)
    (he : fn ((pyZip args).getD i default) = Except.error e)
    (hok : ∀ j, j < i → ∃ v, fn ((pyZip args).getD j default) = Except.ok v) :
    run_parallel fn args none none avail = Except.error e := by
  have hpos : 0 < zipLen args := Nat.lt_of_le_of_lt (Nat.zero_le i) hi
  have hne : args ≠ [] := by
    rintro rfl
    exact absurd hpos (Nat.lt_irrefl 0)
  rw [run_parallel_none_eq fn args none avail hne hpos]
  exact collectFrom_err_noTimeout fn avail default 0 (pyZip args) i e
    (by rw [pyZip_length]; exact hi) he hok

/-- Witness for C2: the function raises `ValueError("boom")` on the
middle tuple `[1]` of `zip([0,1,2])` and that very exception is what
`run_parallel` raises. -/
theorem run_parallel_first_failure_witness :
    run_parallel
        (fun t => if t = [1] then Except.error (PyErr.exc "ValueError" "boom")
          else Except.ok (7 : Nat))
        [[0, 1, 2]] none none (fun _ => true)
      = Except.error (PyErr.exc "ValueError" "boom") :=
  run_parallel_first_failure
    (fun t => if t = [1] then Except.error (PyErr.exc "ValueError" "boom")
      else Except.ok (7 : Nat))
    [[0, 1, 2]] (fun _ => true) 1 (PyErr.exc "ValueError" "boom")
    (by decide) rfl
    (fun j hj => by
      have hj0 : j = 0 := Nat.lt_one_iff.mp hj
      subst hj0
      exact ⟨7, rfl⟩)

/-- C5 counterexample: with `timeout` set, a tuple whose result is not
available within the bound (index 1) and an earlier tuple whose result is
available and raised `ValueError("boom")` (index 0), the call raises the
`ValueError`, not a TimeoutError — refuting the claim that any
not-available-in-time result forces a TimeoutError-kind failure. -/
theorem run_parallel_timeout_cex :
    run_parallel
        (fun t => if t = [0] then Except.error (PyErr.exc "ValueError" "boom")
          else Except.ok (0 : Nat))
        [[0, 1]] (some 1) none (fun i => i == 0)
      = Except.error (PyErr.exc "ValueError" "boom") ∧
    ¬ run_parallel
        (fun t => if t = [0] then Except.error (PyErr.exc "ValueError" "boom")
          else Except.ok (0 : Nat))
        [[0, 1]] (some 1) none (fun i => i == 0)
      = Except.error PyErr.timeoutError :=
  ⟨rfl, fun h => absurd (Except.error.inj h) (by decide)⟩

/-- C5 (amended): with `timeout` set, `fn` raising on no tuple, and some
result not available within the bound, the call raises `TimeoutError`
rather than returning results. -/
theorem run_parallel_timeout_error [Inhabited α]
    (fn : List α → Except PyErr β) (args : List (List α)) (t : Rat)
    (avail : Nat → Bool)
    (hok : ∀ tup ∈ pyZip args, ∃ v, fn tup = Except.ok v)
    (hbad : ∃ i, i < zipLen args ∧ avail i = false) :
    run_parallel fn args (some t) none avail
      = Except.error PyErr.timeoutError := by
  rcases hbad with ⟨i, hi, hia⟩
  have hpos : 0 < zipLen args := Nat.lt_of_le_of_lt (Nat.zero_le i) hi
  have hne : args ≠ [] := by
    rintro rfl
    exact absurd hpos (Nat.lt_irrefl 0)
  rw [run_parallel_none_eq fn args (some t) avail hne hpos]
  exact collectFrom_timeout fn avail 0 (pyZip args) hok
    ⟨i, by rw [pyZip_length]; exact hi, by simpa using hia⟩

/-- Witness for the amended C5: one unit of work, never available in
time, makes the call raise `TimeoutError`. -/
theorem run_parallel_timeout_error_witness :
    run_parallel (fun _ => Except.ok (0 : Nat)) [[7]] (some 1) none
        (fun _ => false)
      = Except.error PyErr.timeoutError :=
  run_parallel_timeout_error (fun _ => Except.ok (0 : Nat)) [[7]] 1
    (fun _ => false) (fun tup _ => ⟨0, rfl⟩) ⟨0, by decide, rfl⟩

/-- C6 counterexample: with sequences of unequal lengths whose shortest
is empty (`[[],[5]]`) and `max_workers` unset, the default worker count is
0, so the call raises `ValueError` instead of returning the empty zip's
result sequence of length 0 — refuting the claim for this input. -/
theorem run_parallel_truncation_cex :
    run_parallel (fun _ => Except.ok (0 : Nat))
        ([[], [5]] : List (List Nat)) none none (fun _ => true)
      = Except.error (PyErr.valueError "max_workers must be greater than 0") ∧
    ¬ ∃ res : List Nat,
        run_parallel (fun _ => Except.ok (0 : Nat))
          ([[], [5]] : List (List Nat)) none none (fun _ => true)
        = Except.ok res := by
  have h1 : run_parallel (fun _ => Except.ok (0 : Nat))
      ([[], [5]] : List (List Nat)) none none (fun _ => true)
    = Except.error (PyErr.valueError "max_workers must be greater than 0") := rfl
  refine ⟨h1, ?_⟩
  rintro ⟨res, h⟩
  exact Except.noConfusion (h1.symm.trans h)

/-- C6 (amended): for sequences of unequal lengths, all of them
non-empty, and a pure `fn`, the inputs are combined by positional zip
truncated to the shortest sequence: the result has length equal to the
minimum of the sequence lengths, every tuple passed to `fn` is a tuple of
i-th elements for some i below that minimum, and the i-th result is `fn`
of the i-th tuple. -/
theorem run_parallel_zip_truncation [Inhabited α] [Inhabited β]
    (fn : List α → Except PyErr β) (g : List α → β)
    (args : List (List α)) (avail : Nat → Bool)
    (hne : args ≠ [])
    (hnonempty : ∀ s ∈ args, s ≠ [])
    (_huneq : ∃ s ∈ args, ∃ s2 ∈ args, s.length ≠ s2.length)
    (hfn : ∀ t, fn t = Except.ok (g t)) :
    ∃ res : List β,
      run_parallel fn args none none avail = Except.ok res ∧
      res.length = zipLen args ∧
      (∀ s ∈ args, zipLen args ≤ s.length) ∧
      (∃ s ∈ args, s.length = zipLen args) ∧
      (∀ t ∈ pyZip args, ∃ i, i < zipLen args ∧ t = tupleAt args i) ∧
      ∀ i, i < zipLen args → res.getD i default = g (tupleAt args i) := by
  have hpos : 0 < zipLen args := zipLen_pos args hne hnonempty
  refine ⟨(pyZip args).map g, ?_, ?_, ?_, ?_, ?_, ?_⟩
  · rw [run_parallel_none_eq fn args none avail hne hpos]
    exact collectFrom_ok_noTimeout fn g avail 0 (pyZip args) (fun t _ => hfn t)
  · rw [List.length_map, pyZip_length]
  · exact fun s hs => zipLen_le args s hs
  · exact zipLen_mem args hne
  · exact fun t ht => pyZip_mem args t ht
  · exact fun i hi => map_pyZip_getD g args i hi

/-- Witness for the amended C6 on non-empty sequences of lengths 2 and
1: the zip truncates to one tuple. -/
theorem run_parallel_zip_truncation_witness :
    ∃ res : List Nat,
      run_parallel (fun t => Except.ok (t.foldl (· + ·) 0))
          ([[1, 2], [10]] : List (List Nat)) none none (fun _ => true)
        = Except.ok res ∧
      res.length = zipLen ([[1, 2], [10]] : List (List Nat)) ∧
      (∀ s ∈ ([[1, 2], [10]] : List (List Nat)),
        zipLen ([[1, 2], [10]] : List (List Nat)) ≤ s.length) ∧
      (∃ s ∈ ([[1, 2], [10]] : List (List Nat)),
        s.length = zipLen ([[1, 2], [10]] : List (List Nat))) ∧
      (∀ t ∈ pyZip ([[1, 2], [10]] : List (List Nat)),
        ∃ i, i < zipLen ([[1, 2], [10]] : List (List Nat)) ∧
          t = tupleAt ([[1, 2], [10]] : List (List Nat)) i) ∧
      ∀ i, i < zipLen ([[1, 2], [10]] : List (List Nat)) →
        res.getD i default
          = (tupleAt ([[1, 2], [10]] : List (List Nat)) i).foldl (· + ·) 0 :=
  run_parallel_zip_truncation (fun t => Except.ok (t.foldl (· + ·) 0))
    (fun t => t.foldl (· + ·) 0) [[1, 2], [10]] (fun _ => true)
    (by decide) (by decide) (by decide) (fun _ => rfl)

end Concurrency
